import Mathlib

/-!
Verification of the OD-flow visualization server (`vis/server.py`) against its
natural-language specification.  The Python code is shallowly embedded: each
relevant function is translated into an executable Lean definition over exact
rational arithmetic (the code computes with IEEE doubles; we model the real
arithmetic it denotes), and the filesystem effects of the index builder are
modelled as an explicit event trace.
-/

namespace Vis

/-! ## Build pipeline file events (`DataEngine._build_year`, `build_totals_for_year`)

`_build_year(y, build_edges_o, build_edges_d, build_hourly)` writes up to four
parquet artifacts.  For each artifact the code first calls
`path.unlink(missing_ok=True)` and only afterwards runs `COPY ... TO path`.
We record that ordering as a list of events. -/

/-- Artifact kinds persisted per year: `edges_by_o_{y}.parquet`,
`edges_by_d_{y}.parquet`, `hourly_{y}.parquet`, `totals_{y}.parquet`. -/
inductive Kind : Type
  | edges_by_o
  | edges_by_d
  | hourly
  | totals
deriving DecidableEq, Repr, Fintype

/-- A filesystem event performed by the builder on an artifact of the given
kind (for a fixed year): removing the published file, or writing the fresh
file via `COPY ... TO`. -/
inductive Ev : Type
  | unlink (k : Kind)
  | write (k : Kind)
deriving DecidableEq, Repr

/-- Event trace of `DataEngine._build_year(y, build_edges_o, build_edges_d,
build_hourly)`: for each requested edge artifact the code does
`unlink(missing_ok=True)` then `COPY`; if `build_hourly` it does the same for
the hourly artifact; finally the per-grid totals artifact is always rebuilt,
again unlink-then-copy. -/
def buildYearTrace (bo bd bh : Bool) : List Ev :=
  (if bo then [Ev.unlink Kind.edges_by_o, Ev.write Kind.edges_by_o] else []) ++
  (if bd then [Ev.unlink Kind.edges_by_d, Ev.write Kind.edges_by_d] else []) ++
  (if bh then [Ev.unlink Kind.hourly, Ev.write Kind.hourly] else []) ++
  [Ev.unlink Kind.totals, Ev.write Kind.totals]

/-- Event trace of `DataEngine.build_totals_for_year` (given the two edge
artifacts already exist): `totals_p.unlink(missing_ok=True)` then
`COPY ... TO totals_p`. -/
def buildTotalsTrace : List Ev :=
  [Ev.unlink Kind.totals, Ev.write Kind.totals]

/-! ## Label-queue pointer operations (`/api/label_queue/advance`, `back`, `set`)

The persisted queue state is a list of grid ids plus an integer pointer; the
pointer read back from the JSON file is an arbitrary integer. -/

/-- Persisted label-queue state: the grid-id queue and the current pointer
(`index` field of `label_queue.json`). -/
structure LQ : Type where
  queue : List Int
  index : Int
deriving DecidableEq, Repr

/-- `api_label_queue_advance`: `if idx < len(queue): idx += 1`. -/
def lqAdvance (q : LQ) : LQ :=
  { q with index := if q.index < (q.queue.length : Int) then q.index + 1 else q.index }

/-- `api_label_queue_back`: `if idx > 0: idx -= 1`. -/
def lqBack (q : LQ) : LQ :=
  { q with index := if 0 < q.index then q.index - 1 else q.index }

/-- `api_label_queue_set` with an explicit requested index: clamp with
`if idx < 0: idx = 0` and `if idx > len(queue): idx = len(queue)`. -/
def lqSet (q : LQ) (requested : Int) : LQ :=
  let i1 : Int := if requested < 0 then 0 else requested
  let i2 : Int := if (q.queue.length : Int) < i1 then (q.queue.length : Int) else i1
  { q with index := i2 }

/-- The pointer invariant maintained by the queue endpoints. -/
def lqInv (q : LQ) : Prop :=
  0 ≤ q.index ∧ q.index ≤ (q.queue.length : Int)

instance (q : LQ) : Decidable (lqInv q) := by
  unfold lqInv; infer_instance

/-! ## Flow query engine (`DataEngine.flows_for_grid`)

Edge aggregate rows are `(o_grid, d_grid, num_total)`.  The query selects the
rows incident to the requested grid in the requested direction, then either
takes the top-`topk` by flow descending, or (coverage mode) keeps the rows
whose running cumulative sum (ordered by flow descending, including the
current row) stays within `cov * tot`, capped at `topk`; finally counterparts
absent from the grid metadata are dropped. -/

/-- One row of an edge aggregate parquet (`o_grid`, `d_grid`, `num_total`). -/
structure ERow : Type where
  o : Int
  d : Int
  flow : ℚ
deriving DecidableEq, Repr

/-- A selected edge: the counterpart grid id together with its `num_total`. -/
structure Edge : Type where
  gid : Int
  flow : ℚ
deriving DecidableEq, Repr

/-- `ORDER BY num_total DESC` over the incident edges. -/
def sortDesc (es : List Edge) : List Edge :=
  es.mergeSort (fun a b => decide (b.flow ≤ a.flow))

/-- Attach to each edge the running cumulative sum including the edge itself
(the SQL window `SUM(num_total) OVER (ORDER BY num_total DESC ROWS UNBOUNDED
PRECEDING)`), starting from accumulator `acc`. -/
def withCum (acc : ℚ) : List Edge → List (Edge × ℚ)
  | [] => []
  | e :: t => (e, acc + e.flow) :: withCum (acc + e.flow) t

/-- `SUM(num_total) OVER ()`: the total flow of the incident edge set. -/
def totalFlow (es : List Edge) : ℚ :=
  (es.map Edge.flow).sum

/-- Coverage-mode selection (the SQL with `WHERE cs <= cov * tot ... LIMIT
topk`): filter the cumulative-annotated descending order by `cs ≤ c * tot`,
keep the edges, cap at `k`.  The SQL re-sort after the filter is the identity
because the filtered rows are already in descending order. -/
def flowsCovSel (es : List Edge) (c : ℚ) (k : ℕ) : List Edge :=
  ((((withCum 0 (sortDesc es)).filter
      (fun p => decide (p.2 ≤ c * totalFlow es))).map Prod.fst).take k)

/-- Spec-side formulation of coverage selection: the longest prefix of the
descending order whose running cumulative sum stays `≤ c * tot`, capped at
`k`.  Stated from the specification text, to be compared with `flowsCovSel`. -/
def covSpecSel (es : List Edge) (c : ℚ) (k : ℕ) : List Edge :=
  ((((withCum 0 (sortDesc es)).takeWhile
      (fun p => decide (p.2 ≤ c * totalFlow es))).map Prod.fst).take k)

/-- Coverage-disabled selection: `ORDER BY num_total DESC LIMIT topk`. -/
def flowsTopSel (es : List Edge) (k : ℕ) : List Edge :=
  (sortDesc es).take k

/-- The clamping of the `cov` parameter at the top of `flows_for_grid`. -/
def clampCov (c : ℚ) : ℚ :=
  if c < 0 then 0 else if 1 < c then 1 else c

/-- The edges of the by-origin aggregate incident to grid `g`
(`WHERE o_grid = ?`, counterpart is `d_grid`). -/
def outEdgesOf (ebo : List ERow) (g : Int) : List Edge :=
  (ebo.filter (fun e => decide (e.o = g))).map (fun e => ⟨e.d, e.flow⟩)

/-- The edges of the by-destination aggregate incident to grid `g`
(`WHERE d_grid = ?`, counterpart is `o_grid`). -/
def inEdgesOf (ebd : List ERow) (g : Int) : List Edge :=
  (ebd.filter (fun e => decide (e.d = g))).map (fun e => ⟨e.o, e.flow⟩)

/-- The `direction` request parameter. -/
inductive Dir : Type
  | dout
  | din
  | both
deriving DecidableEq, Repr

/-- The two edge lists returned by `flows_for_grid`. -/
structure FlowsOut : Type where
  out_edges : List Edge
  in_edges : List Edge
deriving DecidableEq, Repr

/-- Per-direction selection: coverage mode when the clamped `cov` is
positive, otherwise plain top-`k`. -/
def selectEdges (es : List Edge) (c : ℚ) (k : ℕ) : List Edge :=
  if 0 < c then flowsCovSel es c k else flowsTopSel es k

/-- `DataEngine.flows_for_grid`: select per requested direction, then drop
every edge whose counterpart id is absent from the grid metadata (the coord
enrichment loop keeps an edge only when `coord(gid)` is non-`None`). -/
def flowsForGrid (meta : List Int) (ebo ebd : List ERow) (g : Int)
    (dir : Dir) (k : ℕ) (cov : ℚ) : FlowsOut :=
  let c := clampCov cov
  let outSel := if dir = Dir.dout ∨ dir = Dir.both
    then selectEdges (outEdgesOf ebo g) c k else []
  let inSel := if dir = Dir.din ∨ dir = Dir.both
    then selectEdges (inEdgesOf ebd g) c k else []
  { out_edges := outSel.filter (fun e => meta.contains e.gid),
    in_edges := inSel.filter (fun e => meta.contains e.gid) }

/-! ## Index builder aggregation (`_build_year`: hourly view and grid totals)

The hourly pipeline over the date-parsed view `t` is: group outbound flow by
`(o_grid, dt, hour)`, inbound flow by `(d_grid, dt, hour)`, full-outer-join
the two on `(grid_id, dt, hour)` with missing sides coalesced to 0, then
group by `(grid_id, week(dt), hour)` summing `out_total`, `in_total` and
`out_total + in_total`.  The calendar-week function `DATE_PART('week', dt)`
is abstracted as a parameter `wk`. -/

/-- A canonical parsed row of the `t` view: parsed date (abstracted as an
integer day key), hour, origin grid, destination grid, trip count. -/
structure TRow : Type where
  dt : Int
  hour : Int
  o : Int
  d : Int
  num : ℚ
deriving DecidableEq, Repr

/-- A row of the `merged` view: `(grid_id, dt, hour, out_total, in_total)`. -/
structure MRow : Type where
  grid : Int
  dt : Int
  hour : Int
  out_t : ℚ
  in_t : ℚ
deriving DecidableEq, Repr

/-- A row of the hourly aggregate artifact:
`(grid_id, week, hour, out_total, in_total, total)`. -/
structure HRow : Type where
  grid : Int
  week : Int
  hour : Int
  out_s : ℚ
  in_s : ℚ
  total : ℚ
deriving DecidableEq, Repr

/-- A row of the grid-totals artifact: `(grid_id, out_total, in_total, total)`. -/
structure GRow : Type where
  grid : Int
  out_s : ℚ
  in_s : ℚ
  total : ℚ
deriving DecidableEq, Repr

/-- The `(grid_id, dt, hour)` keys present in `out_by` or `in_by` (the key set
of the full outer join). -/
def mergedKeys (ts : List TRow) : List (Int × Int × Int) :=
  ((ts.map fun r => (r.o, r.dt, r.hour)) ++ (ts.map fun r => (r.d, r.dt, r.hour))).dedup

/-- The `merged` view: for each key, the outbound group sum (0 when the key is
absent from `out_by`) and the inbound group sum (0 when absent from `in_by`). -/
def mergedOf (ts : List TRow) : List MRow :=
  (mergedKeys ts).map fun k =>
    { grid := k.1, dt := k.2.1, hour := k.2.2,
      out_t := ((ts.filter fun r =>
        decide (r.o = k.1 ∧ r.dt = k.2.1 ∧ r.hour = k.2.2)).map TRow.num).sum,
      in_t := ((ts.filter fun r =>
        decide (r.d = k.1 ∧ r.dt = k.2.1 ∧ r.hour = k.2.2)).map TRow.num).sum }

/-- The `hourly` view: group `merged` by `(grid_id, week(dt), hour)`, summing
`out_total`, `in_total`, and `out_total + in_total`. -/
def hourlyAgg (wk : Int → Int) (ms : List MRow) : List HRow :=
  ((ms.map fun m => (m.grid, wk m.dt, m.hour)).dedup).map fun k =>
    let grp := ms.filter fun m => decide (m.grid = k.1 ∧ wk m.dt = k.2.1 ∧ m.hour = k.2.2)
    { grid := k.1, week := k.2.1, hour := k.2.2,
      out_s := (grp.map MRow.out_t).sum,
      in_s := (grp.map MRow.in_t).sum,
      total := (grp.map fun m => m.out_t + m.in_t).sum }

/-- The hourly artifact built for one year from the parsed row stream. -/
def hourlyArtifact (wk : Int → Int) (ts : List TRow) : List HRow :=
  hourlyAgg wk (mergedOf ts)

/-- The grid-totals artifact from the edge aggregate rows: `gout` grouped by
origin, `gin` grouped by destination, full outer join on `grid_id`, missing
sides coalesced to 0, `total = out + in`. -/
def gridTotals (es : List ERow) : List GRow :=
  (((es.map ERow.o) ++ (es.map ERow.d)).dedup).map fun g =>
    { grid := g,
      out_s := ((es.filter fun e => decide (e.o = g)).map ERow.flow).sum,
      in_s := ((es.filter fun e => decide (e.d = g)).map ERow.flow).sum,
      total := ((es.filter fun e => decide (e.o = g)).map ERow.flow).sum +
        ((es.filter fun e => decide (e.d = g)).map ERow.flow).sum }

/-! ## Hourly query engine (`DataEngine.hourly_series_for_grid`, `api_hourly`) -/

/-- The three 24-slot arrays accumulated by `hourly_series_for_grid`
(out / in / total for the single representative week `W1`). -/
structure SeriesOut : Type where
  out_a : List ℚ
  in_a : List ℚ
  tot_a : List ℚ
deriving DecidableEq, Repr

/-- The `[0.0]*24` initial arrays. -/
def zeroSeries : SeriesOut :=
  ⟨List.replicate 24 0, List.replicate 24 0, List.replicate 24 0⟩

/-- The rows of the hourly artifact for the requested grid (`WHERE grid_id = ?`). -/
def gridRows (rows : List HRow) (g : Int) : List HRow :=
  rows.filter fun r => decide (r.grid = g)

/-- `weeks_all[:1]`: the earliest ISO week present among the grid's rows. -/
def earliestWeek (rows : List HRow) : Option Int :=
  (rows.map HRow.week).min?

/-- Store one row's sums at its hour slot. -/
def writeRow (r : HRow) (s : SeriesOut) : SeriesOut :=
  ⟨s.out_a.set r.hour.toNat r.out_s,
   s.in_a.set r.hour.toNat r.in_s,
   s.tot_a.set r.hour.toNat r.total⟩

/-- The fill loop of `hourly_series_for_grid`: a row is stored only when its
week is the selected earliest week (otherwise the `week_map` lookup misses)
and its hour lies in `0..23`. -/
def fillRows (w0 : Option Int) : List HRow → SeriesOut → SeriesOut
  | [], s => s
  | r :: rs, s =>
      fillRows w0 rs
        (if some r.week = w0 ∧ 0 ≤ r.hour ∧ r.hour < 24 then writeRow r s else s)

/-- `hourly_series_for_grid` for one year whose hourly artifact rows are
`rows`: select the grid's rows, pick their earliest week, fill the 24-slot
arrays starting from zeros. -/
def hourlySeriesForGrid (rows : List HRow) (g : Int) : SeriesOut :=
  fillRows (earliestWeek (gridRows rows g)) (gridRows rows g) zeroSeries

/-- `api_hourly`: the response contains exactly the requested years whose
hourly artifact exists; absent years are omitted, not zero-filled. -/
def apiHourly (years : List Int) (hasHourly : Int → Bool)
    (rowsOf : Int → List HRow) (g : Int) : List (Int × SeriesOut) :=
  (years.filter hasHourly).map fun y => (y, hourlySeriesForGrid (rowsOf y) g)

/-! ## Low-traffic filter (`api_label_queue_start`, pool-table path) -/

/-- `AVG(total)` over all weeks containing `(g, h)` rows; an entirely missing
`(grid, hour)` combination is coalesced to average 0. -/
def avgTotal (rows : List HRow) (g h : Int) : ℚ :=
  if (rows.filter fun r => decide (r.grid = g ∧ r.hour = h)).length = 0 then 0
  else ((rows.filter fun r => decide (r.grid = g ∧ r.hour = h)).map HRow.total).sum /
    ((rows.filter fun r => decide (r.grid = g ∧ r.hour = h)).length : ℚ)

/-- The 24 synthesized hours `0..23` (the SQL `range(0,24)`). -/
def hoursFull : List Int :=
  (List.range 24).map Int.ofNat

/-- Fraction of the 24 synthesized hours whose average total is `≤ lowValue`
(the `low_ratio` column). -/
def lowShare (rows : List HRow) (lowValue : ℚ) (g : Int) : ℚ :=
  ((hoursFull.filter fun h => decide (avgTotal rows g h ≤ lowValue)).length : ℚ) / 24

/-- The flag decision for one candidate grid: `low_ratio >= low_pct / 100`. -/
def lowFlag (rows : List HRow) (lowValue lowPct : ℚ) (g : Int) : Bool :=
  decide (lowPct / 100 ≤ lowShare rows lowValue g)

/-- The `low_pct` parameter clamp of `api_label_queue_start`:
`low_pct = max(0.0, min(100.0, low_pct))`. -/
def clampPct (p : ℚ) : ℚ :=
  max 0 (min 100 p)

/-- The `low_value` parameter clamp of `api_label_queue_start`:
`if low_value < 0: low_value = 0.0`. -/
def clampLow (v : ℚ) : ℚ :=
  if v < 0 then 0 else v

/-- The flagged (excluded) subset of the candidate pool.  The filter runs
only under the enablement guard `low_pct > 0.0` (after the clamp): for
`low_pct ≤ 0` it is skipped entirely and nothing is flagged.  When the chosen
artifact contains no weeks at all, the code also skips the computation and
keeps the pool unchanged, i.e. flags nothing. -/
def lowTrafficGrids (rows : List HRow) (lowValue lowPct : ℚ)
    (pool : List Int) : List Int :=
  if 0 < clampPct lowPct then
    (if rows.isEmpty then []
     else pool.filter (lowFlag rows (clampLow lowValue) (clampPct lowPct)))
  else []

/-- A concrete hourly artifact: twelve rows for grid 1 (week 1, hours 0..11,
total 5 each), so grid 1's low-hour share at `low_value = 0` is 12/24 = 1/2. -/
def twelveLowRows : List HRow :=
  [⟨1, 1, 0, 0, 0, 5⟩, ⟨1, 1, 1, 0, 0, 5⟩, ⟨1, 1, 2, 0, 0, 5⟩, ⟨1, 1, 3, 0, 0, 5⟩,
   ⟨1, 1, 4, 0, 0, 5⟩, ⟨1, 1, 5, 0, 0, 5⟩, ⟨1, 1, 6, 0, 0, 5⟩, ⟨1, 1, 7, 0, 0, 5⟩,
   ⟨1, 1, 8, 0, 0, 5⟩, ⟨1, 1, 9, 0, 0, 5⟩, ⟨1, 1, 10, 0, 0, 5⟩, ⟨1, 1, 11, 0, 0, 5⟩]

/-! ## Heatmap percentile (`api_heat`) -/

/-- `sorted(values)` ascending. -/
def sortAsc (l : List ℚ) : List ℚ :=
  l.mergeSort fun a b => decide (a ≤ b)

/-- The `q95` computation of `api_heat` on the filtered value list:
`vs[int(math.floor(0.95 * (len(vs) - 1)))] if len(vs) > 1 else vs[0]`,
with the double arithmetic modelled exactly over ℚ. -/
def heatQ95 (vals : List ℚ) : ℚ :=
  if 1 < (sortAsc vals).length then
    (sortAsc vals).getD (⌊(95 / 100 : ℚ) * (((sortAsc vals).length : ℚ) - 1)⌋₊) 0
  else (sortAsc vals).headD 0

/-! ## Flows endpoint dispatch (`api_flows`) -/

/-- Outcome of `api_flows`, abstracted over the per-year query result type:
the `"all"`-mode year map, a single-year result, the 404 "no indexes
available" failure, or the 409 "index missing" failure carrying the year. -/
inductive FlowsResp (α : Type) : Type
  | all (data : List (Int × α))
  | single (res : α)
  | errNoIndexes
  | errIndexMissing (y : Int)
deriving DecidableEq, Repr

/-- `api_flows` dispatch: `eo y` / `ed y` say whether `edges_by_o_{y}` /
`edges_by_d_{y}` exist, `q y` is the per-year query; the year parameter is
`none` for `"all"`. -/
def apiFlows {α : Type} (years : List Int) (eo ed : Int → Bool)
    (q : Int → α) : Option Int → FlowsResp α
  | none =>
      let avail := years.filter fun y => eo y && ed y
      if avail.isEmpty then FlowsResp.errNoIndexes
      else FlowsResp.all (avail.map fun y => (y, q y))
  | some y =>
      if eo y && ed y then FlowsResp.single (q y) else FlowsResp.errIndexMissing y

end Vis

/-! ## Claim theorems (first batch) -/

open Vis

/-- Claim C1, as stated, is false of the code: in `_build_year` the previously
published `edges_by_o` file is unlinked strictly before the new file is
written, so the write does not precede the removal. -/
theorem c1_counterexample :
    ¬ ((buildYearTrace true true true).indexOf (Ev.write Kind.edges_by_o) <
       (buildYearTrace true true true).indexOf (Ev.unlink Kind.edges_by_o)) := by
  decide

/-- Claim C1 (amended): for every build configuration and every artifact kind,
the builder removes the previously published file strictly before writing the
new one (delete-old-then-write-new); an unlink occurs for a kind exactly when
a write does.  Likewise for `build_totals_for_year`. -/
theorem c1_delete_before_write (bo bd bh : Bool) (k : Kind) :
    (Ev.unlink k ∈ buildYearTrace bo bd bh ↔ Ev.write k ∈ buildYearTrace bo bd bh) ∧
    (Ev.write k ∈ buildYearTrace bo bd bh →
      (buildYearTrace bo bd bh).indexOf (Ev.unlink k) <
        (buildYearTrace bo bd bh).indexOf (Ev.write k)) ∧
    buildTotalsTrace.indexOf (Ev.unlink Kind.totals) <
      buildTotalsTrace.indexOf (Ev.write Kind.totals) := by
  revert bo bd bh k; decide

/-- Witness for the amended C1 at a concrete build configuration. -/
theorem c1_delete_before_write_witness :
    (buildYearTrace true true true).indexOf (Ev.unlink Kind.edges_by_o) <
      (buildYearTrace true true true).indexOf (Ev.write Kind.edges_by_o) :=
  (c1_delete_before_write true true true Kind.edges_by_o).2.1 (by decide)

/-- Claim C10: each queue-pointer operation preserves `0 ≤ index ≤ |queue|`:
`advance` never moves the pointer past the queue length, `back` never below
zero, and `set` clamps any requested index into range (indeed establishes the
invariant unconditionally). -/
theorem c10_queue_pointer_inv (q : LQ) (r : Int) (h : lqInv q) :
    lqInv (lqAdvance q) ∧ lqInv (lqBack q) ∧ lqInv (lqSet q r) := by
  obtain ⟨h0, h1⟩ := h
  refine ⟨⟨?_, ?_⟩, ⟨?_, ?_⟩, ⟨?_, ?_⟩⟩ <;>
    simp only [lqAdvance, lqBack, lqSet] <;> split <;> omega

/-- Witness for C10 at a concrete queue state and requested index. -/
theorem c10_queue_pointer_inv_witness :
    lqInv (lqAdvance ⟨[7, 8], 1⟩) ∧ lqInv (lqBack ⟨[7, 8], 1⟩) ∧
      lqInv (lqSet ⟨[7, 8], 1⟩ (-5)) :=
  c10_queue_pointer_inv ⟨[7, 8], 1⟩ (-5) (by decide)

/-! ## Lemmas about cumulative sums and the coverage selection -/

theorem withCum_map_fst (a : ℚ) (l : List Edge) :
    (withCum a l).map Prod.fst = l := by
  induction l generalizing a with
  | nil => rfl
  | cons e t ih => simp [withCum, ih]

theorem fst_mem_of_mem_withCum {a : ℚ} {l : List Edge} {p : Edge × ℚ}
    (hp : p ∈ withCum a l) : p.1 ∈ l := by
  have := List.mem_map_of_mem Prod.fst hp
  rwa [withCum_map_fst] at this

theorem le_cum_of_mem_withCum {l : List Edge} (hnn : ∀ e ∈ l, 0 ≤ e.flow) :
    ∀ a : ℚ, ∀ p ∈ withCum a l, a ≤ p.2 := by
  induction l with
  | nil => intro a p hp; simp [withCum] at hp
  | cons e t ih =>
    intro a p hp
    have he : 0 ≤ e.flow := hnn e (by simp)
    rw [withCum] at hp
    rcases List.mem_cons.mp hp with rfl | hp'
    · simp; linarith
    · have := ih (fun x hx => hnn x (by simp [hx])) (a + e.flow) p hp'
      linarith

theorem filter_withCum_eq_takeWhile {l : List Edge}
    (hnn : ∀ e ∈ l, 0 ≤ e.flow) (t : ℚ) :
    ∀ a : ℚ, (withCum a l).filter (fun p => decide (p.2 ≤ t)) =
      (withCum a l).takeWhile (fun p => decide (p.2 ≤ t)) := by
  induction l with
  | nil => intro a; rfl
  | cons e tl ih =>
    intro a
    have hnn' : ∀ x ∈ tl, 0 ≤ x.flow := fun x hx => hnn x (by simp [hx])
    by_cases hle : a + e.flow ≤ t
    · simp [withCum, List.filter_cons, List.takeWhile_cons, hle, ih hnn']
    · have hnil : (withCum (a + e.flow) tl).filter (fun p => decide (p.2 ≤ t)) = [] := by
        rw [List.filter_eq_nil_iff]
        intro p hp
        have := le_cum_of_mem_withCum hnn' (a + e.flow) p hp
        simp only [decide_eq_true_eq]
        intro hc
        exact hle (le_trans this hc)
      simp [withCum, List.filter_cons, List.takeWhile_cons, hle, hnil]

theorem sum_takeWhile_withCum_le {l : List Edge}
    (hnn : ∀ e ∈ l, 0 ≤ e.flow) {t : ℚ} :
    ∀ a : ℚ, a ≤ t →
      ((((withCum a l).takeWhile (fun p => decide (p.2 ≤ t))).map
        (fun p => p.1.flow)).sum) + a ≤ t := by
  induction l with
  | nil => intro a ha; simpa [withCum] using ha
  | cons e tl ih =>
    intro a ha
    have hnn' : ∀ x ∈ tl, 0 ≤ x.flow := fun x hx => hnn x (by simp [hx])
    by_cases hle : a + e.flow ≤ t
    · have := ih hnn' (a + e.flow) hle
      rw [withCum, List.takeWhile_cons, if_pos (decide_eq_true hle)]
      simp only [List.map_cons, List.sum_cons]
      linarith
    · rw [withCum, List.takeWhile_cons, if_neg (by simpa using hle)]
      simpa using ha

theorem sum_take_le_of_nonneg (l : List ℚ) (k : ℕ)
    (hnn : ∀ x ∈ l, 0 ≤ x) : (l.take k).sum ≤ l.sum := by
  conv_rhs => rw [← List.take_append_drop k l]
  rw [List.sum_append]
  have : 0 ≤ (l.drop k).sum :=
    List.sum_nonneg (fun x hx => hnn x (List.mem_of_mem_drop hx))
  linarith

theorem nonneg_outEdgesOf {ebo : List ERow} {g : Int}
    (h : ∀ r ∈ ebo, 0 ≤ r.flow) : ∀ e ∈ outEdgesOf ebo g, 0 ≤ e.flow := by
  intro e he
  simp only [outEdgesOf, List.mem_map, List.mem_filter] at he
  obtain ⟨r, ⟨hr, _⟩, rfl⟩ := he
  exact h r hr

theorem nonneg_inEdgesOf {ebd : List ERow} {g : Int}
    (h : ∀ r ∈ ebd, 0 ≤ r.flow) : ∀ e ∈ inEdgesOf ebd g, 0 ≤ e.flow := by
  intro e he
  simp only [inEdgesOf, List.mem_map, List.mem_filter] at he
  obtain ⟨r, ⟨hr, _⟩, rfl⟩ := he
  exact h r hr

/-- Core refinement: on nonnegative flows, the SQL coverage selection is the
spec's take-while prefix, and its flow sum stays within `c` times the grid's
total. -/
theorem covSel_spec_of_nonneg (es : List Edge) (c : ℚ) (k : ℕ)
    (hnn : ∀ e ∈ es, 0 ≤ e.flow) (hc : 0 < c) :
    flowsCovSel es c k = covSpecSel es c k ∧
    ((flowsCovSel es c k).map Edge.flow).sum ≤ c * totalFlow es := by
  have hnns : ∀ e ∈ sortDesc es, 0 ≤ e.flow := by
    intro e he
    exact hnn e (List.mem_mergeSort.mp he)
  have htot : 0 ≤ totalFlow es :=
    List.sum_nonneg (by
      intro x hx
      simp only [List.mem_map] at hx
      obtain ⟨e, he, rfl⟩ := hx
      exact hnn e he)
  have hct : (0 : ℚ) ≤ c * totalFlow es := mul_nonneg (le_of_lt hc) htot
  have heq : flowsCovSel es c k = covSpecSel es c k := by
    unfold flowsCovSel covSpecSel
    rw [filter_withCum_eq_takeWhile hnns (c * totalFlow es) 0]
  refine ⟨heq, ?_⟩
  rw [heq]
  unfold covSpecSel
  set tw := (withCum 0 (sortDesc es)).takeWhile
    (fun p => decide (p.2 ≤ c * totalFlow es)) with htw
  have h1 : ((tw.map Prod.fst).take k).map Edge.flow =
      (tw.map (fun p => p.1.flow)).take k := by
    simp only [← List.map_take, List.map_map]
    congr 1
  rw [h1]
  have h2 : ((tw.map (fun p => p.1.flow)).take k).sum ≤
      (tw.map (fun p => p.1.flow)).sum := by
    apply sum_take_le_of_nonneg
    intro x hx
    simp only [List.mem_map] at hx
    obtain ⟨p, hp, rfl⟩ := hx
    have hp' : p ∈ withCum 0 (sortDesc es) :=
      (List.takeWhile_sublist _).mem hp
    exact hnns p.1 (fst_mem_of_mem_withCum hp')
  have h3 : (tw.map (fun p => p.1.flow)).sum + 0 ≤ c * totalFlow es :=
    sum_takeWhile_withCum_le hnns 0 hct
  linarith

/-- Claim C2: for every grid and both directions, when coverage `c ∈ (0,1]`
the selection equals the descending-order prefix whose running cumulative sum
(including the current edge) stays `≤ c` times the grid's directional total,
capped at `topk`; in particular the returned flow sum never exceeds
`c * total`.  Flows are nonnegative per the data model. -/
theorem c2_coverage_selection (ebo ebd : List ERow) (g : Int) (c : ℚ) (k : ℕ)
    (ho : ∀ r ∈ ebo, 0 ≤ r.flow) (hd : ∀ r ∈ ebd, 0 ≤ r.flow)
    (hc0 : 0 < c) (hc1 : c ≤ 1) :
    (flowsCovSel (outEdgesOf ebo g) c k = covSpecSel (outEdgesOf ebo g) c k ∧
      ((flowsCovSel (outEdgesOf ebo g) c k).map Edge.flow).sum ≤
        c * totalFlow (outEdgesOf ebo g)) ∧
    (flowsCovSel (inEdgesOf ebd g) c k = covSpecSel (inEdgesOf ebd g) c k ∧
      ((flowsCovSel (inEdgesOf ebd g) c k).map Edge.flow).sum ≤
        c * totalFlow (inEdgesOf ebd g)) :=
  ⟨covSel_spec_of_nonneg _ c k (nonneg_outEdgesOf ho) hc0,
   covSel_spec_of_nonneg _ c k (nonneg_inEdgesOf hd) hc0⟩

/-- Witness for C2 on a concrete edge aggregate: grid 1 with outgoing flows
10, 5, 1 and one incoming flow, coverage 7/10, topk 5. -/
theorem c2_coverage_selection_witness :
    (flowsCovSel (outEdgesOf [⟨1, 2, 10⟩, ⟨1, 3, 5⟩, ⟨1, 4, 1⟩, ⟨9, 2, 3⟩] 1) (7/10) 5 =
        covSpecSel (outEdgesOf [⟨1, 2, 10⟩, ⟨1, 3, 5⟩, ⟨1, 4, 1⟩, ⟨9, 2, 3⟩] 1) (7/10) 5 ∧
      ((flowsCovSel (outEdgesOf [⟨1, 2, 10⟩, ⟨1, 3, 5⟩, ⟨1, 4, 1⟩, ⟨9, 2, 3⟩] 1) (7/10) 5).map
          Edge.flow).sum ≤
        (7/10) * totalFlow (outEdgesOf [⟨1, 2, 10⟩, ⟨1, 3, 5⟩, ⟨1, 4, 1⟩, ⟨9, 2, 3⟩] 1)) ∧
    (flowsCovSel (inEdgesOf [⟨5, 1, 4⟩] 1) (7/10) 5 =
        covSpecSel (inEdgesOf [⟨5, 1, 4⟩] 1) (7/10) 5 ∧
      ((flowsCovSel (inEdgesOf [⟨5, 1, 4⟩] 1) (7/10) 5).map Edge.flow).sum ≤
        (7/10) * totalFlow (inEdgesOf [⟨5, 1, 4⟩] 1)) :=
  c2_coverage_selection [⟨1, 2, 10⟩, ⟨1, 3, 5⟩, ⟨1, 4, 1⟩, ⟨9, 2, 3⟩] [⟨5, 1, 4⟩] 1 (7/10) 5
    (by decide) (by decide) (by norm_num) (by norm_num)

/-- Claim C4: each direction's returned list of `flows_for_grid` has at most
`topk` entries, in both coverage modes, and every returned counterpart id is
present in the grid metadata (counterparts absent from the metadata are
dropped, which can push counts below `topk`). -/
theorem c4_topk_and_meta (meta : List Int) (ebo ebd : List ERow) (g : Int)
    (dir : Dir) (k : ℕ) (cov : ℚ) :
    (flowsForGrid meta ebo ebd g dir k cov).out_edges.length ≤ k ∧
    (flowsForGrid meta ebo ebd g dir k cov).in_edges.length ≤ k ∧
    ((flowsForGrid meta ebo ebd g dir k cov).out_edges.all
      (fun e => meta.contains e.gid)) = true ∧
    ((flowsForGrid meta ebo ebd g dir k cov).in_edges.all
      (fun e => meta.contains e.gid)) = true := by
  have hsel : ∀ (es : List Edge) (c : ℚ), (selectEdges es c k).length ≤ k := by
    intro es c
    unfold selectEdges flowsCovSel flowsTopSel
    split
    · exact List.length_take_le _ _
    · exact List.length_take_le _ _
  have hbranch : ∀ (b : Prop) [Decidable b] (es : List Edge) (c : ℚ),
      (if b then selectEdges es c k else []).length ≤ k := by
    intro b _ es c
    split
    · exact hsel es c
    · simp
  refine ⟨?_, ?_, ?_, ?_⟩
  · exact le_trans (List.length_filter_le _ _) (hbranch _ _ _)
  · exact le_trans (List.length_filter_le _ _) (hbranch _ _ _)
  · simp only [List.all_eq_true]
    intro e he
    exact (List.mem_filter.mp he).2
  · simp only [List.all_eq_true]
    intro e he
    exact (List.mem_filter.mp he).2


/-- Claim C5: for every input row stream and every built partition, each row
of the hourly aggregate and each row of the grid-totals aggregate satisfies
`total_sum = out_sum + in_sum`. -/
theorem c5_sum_invariant (wk : Int → Int) (ts : List TRow) (es : List ERow) :
    ((hourlyArtifact wk ts).all fun r => decide (r.total = r.out_s + r.in_s)) = true ∧
    ((gridTotals es).all fun r => decide (r.total = r.out_s + r.in_s)) = true := by
  constructor
  · rw [List.all_eq_true]
    intro r hr
    simp only [decide_eq_true_eq]
    simp only [hourlyArtifact, hourlyAgg, List.mem_map] at hr
    obtain ⟨k, hk, rfl⟩ := hr
    simp [List.sum_map_add]
  · rw [List.all_eq_true]
    intro r hr
    simp only [decide_eq_true_eq]
    simp only [gridTotals, List.mem_map] at hr
    obtain ⟨g, hg, rfl⟩ := hr
    rfl

/-! ## Low-traffic filter: C3 and C9 -/

theorem mem_lowTrafficGrids_iff (rows : List HRow) (lowValue lowPct : ℚ)
    (pool : List Int) (g : Int) :
    g ∈ lowTrafficGrids rows lowValue lowPct pool ↔
      0 < clampPct lowPct ∧ rows.isEmpty = false ∧ g ∈ pool ∧
        lowFlag rows (clampLow lowValue) (clampPct lowPct) g = true := by
  unfold lowTrafficGrids
  by_cases hp : 0 < clampPct lowPct
  · rw [if_pos hp]
    by_cases hemp : rows.isEmpty
    · rw [if_pos hemp]
      simp [hemp]
    · rw [if_neg hemp]
      rw [List.mem_filter]
      simp [Bool.eq_false_iff.mpr hemp, hp]
  · rw [if_neg hp]
    simp [hp]

theorem lowShare_twelveLowRows : lowShare twelveLowRows 0 1 = 1 / 2 := by
  norm_num [lowShare, hoursFull, avgTotal, twelveLowRows, List.range_succ,
    List.filter_cons, List.filter_nil]

/-- Claim C3, as stated, is false of the code: grid 1 (low-hour share 1/2) is
flagged at `low_pct = 50` but no longer flagged after raising `low_pct` to
60, so raising `low_pct` does remove grids from the flagged set. -/
theorem c3_counterexample :
    (50 : ℚ) < 60 ∧
    1 ∈ lowTrafficGrids twelveLowRows 0 50 [1] ∧
    1 ∉ lowTrafficGrids twelveLowRows 0 60 [1] := by
  have h50 : clampPct 50 = 50 := by norm_num [clampPct]
  have h60 : clampPct 60 = 60 := by norm_num [clampPct]
  have h0 : clampLow 0 = 0 := by norm_num [clampLow]
  refine ⟨by norm_num, ?_, ?_⟩
  · rw [mem_lowTrafficGrids_iff, h50, h0]
    refine ⟨by norm_num, by decide, by decide, ?_⟩
    unfold lowFlag
    rw [lowShare_twelveLowRows]
    norm_num
  · rw [mem_lowTrafficGrids_iff, h60, h0]
    intro h
    have := h.2.2.2
    unfold lowFlag at this
    rw [lowShare_twelveLowRows] at this
    norm_num at this

/-- Claim C3 (amended): the filter runs only when `low_pct > 0` (otherwise it
flags nothing), and on that enabled range the flagged set is antitone in
`low_pct`: for a fixed candidate set, hourly artifact and `low_value`, and
any `0 < p1 ≤ p2`, every grid flagged at the higher `low_pct` is still
flagged at the lower one; raising `low_pct` within the enabled range never
adds a grid. -/
theorem c3_low_pct_antitone (rows : List HRow) (lowValue p1 p2 : ℚ)
    (pool : List Int) (g : Int) (hp0 : 0 < p1) (hp : p1 ≤ p2)
    (hg : g ∈ lowTrafficGrids rows lowValue p2 pool) :
    g ∈ lowTrafficGrids rows lowValue p1 pool := by
  rw [mem_lowTrafficGrids_iff] at hg ⊢
  obtain ⟨_, hemp, hpool, hflag⟩ := hg
  have hcp1 : 0 < clampPct p1 := by
    unfold clampPct
    rw [lt_max_iff, lt_min_iff]
    right
    exact ⟨by norm_num, hp0⟩
  have hmono : clampPct p1 ≤ clampPct p2 := by
    unfold clampPct
    exact max_le_max le_rfl (min_le_min le_rfl hp)
  refine ⟨hcp1, hemp, hpool, ?_⟩
  unfold lowFlag at hflag ⊢
  simp only [decide_eq_true_eq] at hflag ⊢
  have h100 : clampPct p1 / 100 ≤ clampPct p2 / 100 := by linarith
  linarith

/-- Witness for the amended C3: grid 1 flagged at `low_pct = 50` stays
flagged at `low_pct = 40`. -/
theorem c3_low_pct_antitone_witness :
    1 ∈ lowTrafficGrids twelveLowRows 0 40 [1] := by
  refine c3_low_pct_antitone twelveLowRows 0 40 50 [1] 1 (by norm_num) (by norm_num) ?_
  rw [mem_lowTrafficGrids_iff]
  have h50 : clampPct 50 = 50 := by norm_num [clampPct]
  have h0 : clampLow 0 = 0 := by norm_num [clampLow]
  rw [h50, h0]
  refine ⟨by norm_num, by decide, by decide, ?_⟩
  unfold lowFlag
  rw [lowShare_twelveLowRows]
  norm_num

/-- Claim C9, as stated, is false of the code in one corner: when the chosen
hourly artifact contains no rows (hence no weeks), the code skips the filter
and keeps the pool, so candidate grid 100 — which has zero hourly rows — is
not flagged even at `low_value = 0`, `low_pct = 50`. -/
theorem c9_counterexample :
    (100 ∈ ([100] : List Int)) ∧
    (([] : List HRow).filter fun r => decide (r.grid = 100)) = [] ∧
    100 ∉ lowTrafficGrids [] 0 50 [100] := by
  refine ⟨by decide, rfl, ?_⟩
  rw [mem_lowTrafficGrids_iff]
  intro h
  exact absurd h.2.1 (by decide)

/-- Claim C9 (amended): provided the chosen hourly artifact is nonempty (it
has at least one week), every candidate grid with zero hourly rows is flagged
at `low_value = 0`, `low_pct = 50`: all 24 synthesized hours average to
0 ≤ 0, giving low-hour share 1 ≥ 1/2. -/
theorem c9_zero_rows_flagged (rows : List HRow) (pool : List Int) (g : Int)
    (hne : rows ≠ []) (hg : g ∈ pool)
    (hz : rows.filter (fun r => decide (r.grid = g)) = []) :
    g ∈ lowTrafficGrids rows 0 50 pool := by
  rw [mem_lowTrafficGrids_iff]
  have h50 : clampPct 50 = 50 := by norm_num [clampPct]
  have h0 : clampLow 0 = 0 := by norm_num [clampLow]
  rw [h50, h0]
  refine ⟨by norm_num, by simpa [List.isEmpty_iff] using hne, hg, ?_⟩
  unfold lowFlag
  simp only [decide_eq_true_eq]
  have havg : ∀ h : Int, avgTotal rows g h = 0 := by
    intro h
    have hnil : rows.filter (fun r => decide (r.grid = g ∧ r.hour = h)) = [] := by
      rw [List.filter_eq_nil_iff]
      intro r hr
      have hrg : ¬(r.grid = g) := by
        have := List.filter_eq_nil_iff.mp hz r hr
        simpa using this
      simp [hrg]
    unfold avgTotal
    rw [hnil]
    simp
  have hshare : lowShare rows 0 g = 1 := by
    unfold lowShare
    have hall : hoursFull.filter
        (fun h => decide (avgTotal rows g h ≤ 0)) = hoursFull := by
      rw [List.filter_eq_self]
      intro h _
      simp [havg]
    rw [hall]
    have hlen : hoursFull.length = 24 := by
      rw [hoursFull, List.length_map, List.length_range]
    rw [hlen]
    norm_num
  rw [hshare]
  norm_num

/-- Witness for the amended C9: the artifact has one row (grid 5), candidate
grid 100 has zero rows and is flagged. -/
theorem c9_zero_rows_flagged_witness :
    100 ∈ lowTrafficGrids [⟨5, 1, 0, 0, 0, 3⟩] 0 50 [100] :=
  c9_zero_rows_flagged [⟨5, 1, 0, 0, 0, 3⟩] [100] 100
    (by decide) (by decide) (by decide)

/-! ## Hourly series: C6 -/

theorem getD_set_ne_q (l : List ℚ) (i j : ℕ) (hij : i ≠ j) (a d : ℚ) :
    (l.set i a).getD j d = l.getD j d := by
  simp [List.getD_eq_getElem?_getD, List.getElem?_set_ne hij]

theorem getD_replicate24 (h : ℕ) :
    (List.replicate 24 (0 : ℚ)).getD h 0 = 0 := by
  rw [List.getD_eq_getElem?_getD]
  rcases lt_or_ge h 24 with hlt | hge
  · rw [List.getElem?_replicate, if_pos hlt]
    rfl
  · rw [List.getElem?_eq_none (by simpa using hge)]
    rfl

theorem fillRows_length (w0 : Option Int) :
    ∀ (rows : List HRow) (s : SeriesOut),
      (fillRows w0 rows s).out_a.length = s.out_a.length ∧
      (fillRows w0 rows s).in_a.length = s.in_a.length ∧
      (fillRows w0 rows s).tot_a.length = s.tot_a.length := by
  intro rows
  induction rows with
  | nil => intro s; exact ⟨rfl, rfl, rfl⟩
  | cons r rs ih =>
    intro s
    simp only [fillRows]
    by_cases hc : some r.week = w0 ∧ 0 ≤ r.hour ∧ r.hour < 24
    · rw [if_pos hc]
      have := ih (writeRow r s)
      simpa [writeRow, List.length_set] using this
    · rw [if_neg hc]
      exact ih s

theorem fillRows_eq_filter_week (w0 : Option Int) :
    ∀ (rows : List HRow) (s : SeriesOut),
      fillRows w0 rows s =
        fillRows w0 (rows.filter fun r => decide (some r.week = w0)) s := by
  intro rows
  induction rows with
  | nil => intro s; rfl
  | cons r rs ih =>
    intro s
    by_cases hw : some r.week = w0
    · rw [List.filter_cons, if_pos (decide_eq_true hw)]
      simp only [fillRows]
      exact ih _
    · rw [List.filter_cons, if_neg (by simpa using hw)]
      simp only [fillRows]
      rw [if_neg (fun hcon => hw hcon.1)]
      exact ih s

theorem fillRows_getD_untouched (w0 : Option Int) (h : ℕ) :
    ∀ (rows : List HRow) (s : SeriesOut),
      (∀ r ∈ rows, ¬(some r.week = w0 ∧ r.hour = (h : Int))) →
      (fillRows w0 rows s).out_a.getD h 0 = s.out_a.getD h 0 ∧
      (fillRows w0 rows s).in_a.getD h 0 = s.in_a.getD h 0 ∧
      (fillRows w0 rows s).tot_a.getD h 0 = s.tot_a.getD h 0 := by
  intro rows
  induction rows with
  | nil => intro s _; exact ⟨rfl, rfl, rfl⟩
  | cons r rs ih =>
    intro s hno
    have hno' : ∀ x ∈ rs, ¬(some x.week = w0 ∧ x.hour = (h : Int)) :=
      fun x hx => hno x (by simp [hx])
    simp only [fillRows]
    by_cases hc : some r.week = w0 ∧ 0 ≤ r.hour ∧ r.hour < 24
    · rw [if_pos hc]
      have hne : r.hour.toNat ≠ h := by
        intro heq
        apply hno r (by simp)
        refine ⟨hc.1, ?_⟩
        have h0 : 0 ≤ r.hour := hc.2.1
        omega
      obtain ⟨h1, h2, h3⟩ := ih (writeRow r s) hno'
      refine ⟨?_, ?_, ?_⟩
      · rw [h1]; exact getD_set_ne_q _ _ _ hne _ _
      · rw [h2]; exact getD_set_ne_q _ _ _ hne _ _
      · rw [h3]; exact getD_set_ne_q _ _ _ hne _ _
    · rw [if_neg hc]
      exact ih s hno'

/-- Claim C6: the hourly series for a grid has three 24-slot arrays, is built
only from the rows of the earliest ISO week present for that grid (rows of
all later weeks are discarded), leaves every hour without a matching row at
zero, and `api_hourly` returns exactly the requested years whose hourly
artifact exists (absent years are omitted, not zero-filled). -/
theorem c6_hourly_series (rows : List HRow) (g : Int) (years : List Int)
    (hasHourly : Int → Bool) (rowsOf : Int → List HRow) :
    ((hourlySeriesForGrid rows g).out_a.length = 24 ∧
     (hourlySeriesForGrid rows g).in_a.length = 24 ∧
     (hourlySeriesForGrid rows g).tot_a.length = 24) ∧
    hourlySeriesForGrid rows g =
      fillRows (earliestWeek (gridRows rows g))
        ((gridRows rows g).filter fun r =>
          decide (some r.week = earliestWeek (gridRows rows g))) zeroSeries ∧
    (∀ h : ℕ, h < 24 →
      (∀ r ∈ gridRows rows g,
        ¬(some r.week = earliestWeek (gridRows rows g) ∧ r.hour = (h : Int))) →
      (hourlySeriesForGrid rows g).out_a.getD h 0 = 0 ∧
      (hourlySeriesForGrid rows g).in_a.getD h 0 = 0 ∧
      (hourlySeriesForGrid rows g).tot_a.getD h 0 = 0) ∧
    (apiHourly years hasHourly rowsOf g).map Prod.fst = years.filter hasHourly := by
  refine ⟨?_, ?_, ?_, ?_⟩
  · have := fillRows_length (earliestWeek (gridRows rows g)) (gridRows rows g) zeroSeries
    simpa [hourlySeriesForGrid, zeroSeries] using this
  · exact fillRows_eq_filter_week _ (gridRows rows g) zeroSeries
  · intro h _ hno
    obtain ⟨h1, h2, h3⟩ := fillRows_getD_untouched (earliestWeek (gridRows rows g)) h
      (gridRows rows g) zeroSeries hno
    have e : hourlySeriesForGrid rows g =
        fillRows (earliestWeek (gridRows rows g)) (gridRows rows g) zeroSeries := rfl
    refine ⟨?_, ?_, ?_⟩
    · rw [e, h1]; exact getD_replicate24 h
    · rw [e, h2]; exact getD_replicate24 h
    · rw [e, h3]; exact getD_replicate24 h
  · rw [apiHourly, List.map_map]
    have hid : (Prod.fst ∘ fun y => (y, hourlySeriesForGrid (rowsOf y) g)) = id := rfl
    rw [hid, List.map_id]

/-- Witness for C6: a one-row artifact (grid 1, week 7, hour 2); hour 3 has
no matching row, so all three arrays read 0 there. -/
theorem c6_hourly_series_witness :
    (hourlySeriesForGrid [⟨1, 7, 2, 1, 2, 3⟩] 1).out_a.getD 3 0 = 0 ∧
    (hourlySeriesForGrid [⟨1, 7, 2, 1, 2, 3⟩] 1).in_a.getD 3 0 = 0 ∧
    (hourlySeriesForGrid [⟨1, 7, 2, 1, 2, 3⟩] 1).tot_a.getD 3 0 = 0 :=
  (c6_hourly_series [⟨1, 7, 2, 1, 2, 3⟩] 1 [2018] (fun _ => true)
      (fun _ => [⟨1, 7, 2, 1, 2, 3⟩])).2.2.1 3 (by norm_num) (by decide)

/-! ## Heatmap percentile: C7 -/

theorem sortAsc_pair : sortAsc [(1 : ℚ), 2] = [1, 2] := by
  apply List.mergeSort_of_sorted
  refine List.pairwise_cons.mpr ⟨?_, List.pairwise_singleton _ _⟩
  intro b hb
  rw [List.mem_singleton] at hb
  subst hb
  norm_num

/-- Claim C7: for every nonempty value list, `q95` is the element of the
ascending sort at index `floor(0.95 * (n - 1))` (equal to `19*(n-1)/20` in
integer arithmetic) — which for `n = 1` is index 0, i.e. the single element —
and on the two-element set `{1, 2}` the percentile is `1`. -/
theorem c7_q95 (vals : List ℚ) (hne : vals ≠ []) :
    heatQ95 vals = (sortAsc vals).getD ((19 * (vals.length - 1)) / 20) 0 ∧
    heatQ95 [(1 : ℚ), 2] = 1 := by
  have hgen : ∀ v : List ℚ, v ≠ [] →
      heatQ95 v = (sortAsc v).getD ((19 * (v.length - 1)) / 20) 0 := by
    intro v hv
    have hlen : (sortAsc v).length = v.length := List.length_mergeSort _
    have hn1 : 1 ≤ v.length := List.length_pos.mpr hv
    unfold heatQ95
    by_cases hgt : 1 < (sortAsc v).length
    · rw [if_pos hgt]
      congr 1
      rw [hlen]
      have hcast : ((v.length : ℚ)) - 1 = ((v.length - 1 : ℕ) : ℚ) := by
        rw [Nat.cast_sub hn1]
        norm_num
      rw [hcast]
      have hprod : (95 / 100 : ℚ) * ((v.length - 1 : ℕ) : ℚ) =
          ((19 * (v.length - 1) : ℕ) : ℚ) / ((20 : ℕ) : ℚ) := by
        push_cast
        ring
      rw [hprod, Nat.floor_div_nat, Nat.floor_natCast]
    · rw [if_neg hgt]
      have hone : (sortAsc v).length = 1 := by omega
      obtain ⟨a, ha⟩ := List.length_eq_one.mp hone
      have hv1 : v.length = 1 := by omega
      rw [ha, hv1]
      rfl
  refine ⟨hgen vals hne, ?_⟩
  rw [hgen [(1 : ℚ), 2] (by simp), sortAsc_pair]
  rfl

/-- Witness for C7 at the concrete value set `{1, 2}`. -/
theorem c7_q95_witness :
    heatQ95 [(1 : ℚ), 2] =
      (sortAsc [(1 : ℚ), 2]).getD ((19 * ([(1 : ℚ), 2].length - 1)) / 20) 0 ∧
    heatQ95 [(1 : ℚ), 2] = 1 :=
  c7_q95 [(1 : ℚ), 2] (by simp)

/-! ## Flows endpoint dispatch: C8 -/

/-- Claim C8: `api_flows` in `"all"` mode answers over exactly the years
whose two edge artifacts exist, as a year-to-result mapping; it fails with
the distinct "no indexes available" condition precisely when no year
qualifies; and a single requested year with a missing artifact fails with
"index missing" carrying the year, never silently returning an empty
result. -/
theorem c8_flows_dispatch {α : Type} (years : List Int) (eo ed : Int → Bool)
    (q : Int → α) (y : Int) :
    ((apiFlows years eo ed q none = FlowsResp.errNoIndexes) ↔
      (years.filter fun z => eo z && ed z) = []) ∧
    ((years.filter fun z => eo z && ed z) ≠ [] →
      apiFlows years eo ed q none =
        FlowsResp.all ((years.filter fun z => eo z && ed z).map fun z => (z, q z))) ∧
    ((eo y && ed y) = false →
      apiFlows years eo ed q (some y) = FlowsResp.errIndexMissing y) ∧
    ((eo y && ed y) = true →
      apiFlows years eo ed q (some y) = FlowsResp.single (q y)) := by
  refine ⟨⟨?_, ?_⟩, ?_, ?_, ?_⟩
  · intro hresp
    by_contra hne
    simp only [apiFlows] at hresp
    rw [if_neg (by simpa [List.isEmpty_iff] using hne)] at hresp
    exact FlowsResp.noConfusion hresp
  · intro hnil
    simp only [apiFlows]
    rw [if_pos (by simpa [List.isEmpty_iff] using hnil)]
  · intro hne
    simp only [apiFlows]
    rw [if_neg (by simpa [List.isEmpty_iff] using hne)]
  · intro hmiss
    simp only [apiFlows]
    rw [hmiss]
    simp
  · intro hhit
    simp only [apiFlows]
    rw [hhit]
    simp

/-- Witness for C8: years 2018 and 2021 where only 2018 has the by-origin
artifact — requesting year 2021 yields the "index missing" failure. -/
theorem c8_flows_dispatch_witness :
    apiFlows [2018, 2021] (fun y => decide (y = 2018)) (fun _ => true)
      (fun y => y) (some 2021) = FlowsResp.errIndexMissing 2021 :=
  (c8_flows_dispatch [2018, 2021] (fun y => decide (y = 2018)) (fun _ => true)
    (fun y => y) 2021).2.2.1 (by decide)
